import Mathlib

/-!
Verification development for the MoESchools data pipeline
(`src/MoESchools.py`): record normalisation, paginated fetch,
roll-band extraction from a spreadsheet, registry/roll reconciliation,
and export base-name handling.  Python values are embedded as `PyVal`,
raw JSON records as total functions `String → PyVal` (a missing key is
`PyVal.pnone`, mirroring `rec.get(f, None)`).
-/

set_option autoImplicit false

namespace MoESchools

/-- Embedding of the Python scalar/composite values the pipeline handles:
`None`, booleans, integers, strings, lists and dicts.  Floats do not occur
in the claims under study. -/
inductive PyVal where
  | pnone : PyVal
  | pbool : Bool → PyVal
  | pint : Int → PyVal
  | pstr : String → PyVal
  | plist : List PyVal → PyVal
  | pdict : List (String × PyVal) → PyVal

/-- Characters of a string with leading whitespace removed and trailing
whitespace removed (Python `str.strip()`; the two ends are independent, so
stripping the trailing end first is immaterial). -/
def stripChars (l : List Char) : List Char :=
  ((l.reverse.dropWhile Char.isWhitespace).reverse).dropWhile Char.isWhitespace

/-- Python `str.strip()` on the embedded strings. -/
def pyStrip (s : String) : String :=
  String.mk (stripChars s.toList)

/-- `normalize_value` from the source: `None` becomes `"-"`; a string is
stripped and becomes `"-"` if empty after stripping; an empty list or dict
becomes `"-"`; every other value passes through unchanged. -/
def normalize_value : PyVal → PyVal
  | PyVal.pnone => PyVal.pstr "-"
  | PyVal.pstr s =>
      let t := pyStrip s
      if t = "" then PyVal.pstr "-" else PyVal.pstr t
  | PyVal.plist l => if l.length = 0 then PyVal.pstr "-" else PyVal.plist l
  | PyVal.pdict d => if d.length = 0 then PyVal.pstr "-" else PyVal.pdict d
  | v => v

/-- The fixed, ordered 34-entry field schema `FIELDS` from the source. -/
def FIELDS : List String :=
  ["School_Id", "Org_Name", "Telephone", "Fax", "Email", "Contact1_Name", "URL",
   "Add1_Line1", "Add1_Suburb", "Add1_City", "Add2_Line1", "Add2_Suburb",
   "Add2_City", "Add2_Postal_Code", "Authority", "Territorial_Authority",
   "Regional_Council", "General_Electorate", "Māori_Electorate", "Ward",
   "Latitude", "Longitude", "EQi_Index", "Roll_Date", "Total", "European",
   "Māori", "Pacific", "Asian", "MELAA", "Other", "International", "Status",
   "DateSchoolOpened"]

/-- A raw record from the remote source, as a total lookup function
(`rec.get(f, None)` yields `PyVal.pnone` for a missing key). -/
abbrev RawRecord : Type := String → PyVal

/-- A projected (normalised) record: ordered association list over `FIELDS`. -/
abbrev ProjRecord : Type := List (String × PyVal)

/-- `project_record` from the source: keep exactly the fields of `FIELDS`,
in order, normalising each value. -/
def project_record (rec : RawRecord) : ProjRecord :=
  FIELDS.map (fun f => (f, normalize_value (rec f)))

/-- One JSON page response from the datastore endpoint.  `success` is the
truthiness of the `success` flag (an absent flag is falsy, hence `false`);
`totalField` and `recordsTotalField` are the optional `result.total` and
`result.records_total` integers; `records` is the record batch (an absent
or `null` list is `[]`, mirroring `result.get("records", []) or []`). -/
structure PageResponse where
  success : Bool
  totalField : Option Int
  recordsTotalField : Option Int
  records : List RawRecord

/-- Python `result.get("total") or result.get("records_total")`: the first
field wins unless it is falsy (`None` or `0`). -/
def pyOrTotal (a b : Option Int) : Option Int :=
  match a with
  | some t => if t = 0 then b else some t
  | none => b

/-- Error message for a failing first page. -/
def initialFailureMsg : String :=
  "MoE Schools Data returned failure (success=False) on initial request."

/-- Error message for a failing subsequent page. -/
def pageFailureMsg : String :=
  "MoE returned success=False mid-fetch"

/-- The fetch while-loop of `fetch_all_projected_records`, with the server
modelled as the stream of page responses indexed by request number and the
iteration count made explicit as fuel (`none` = fuel exhausted; the theorem
for claim C8 shows fuel `total - fetched` always suffices, so the fuel does
not constrain the modelled behaviour).  `k` is the number of requests made
so far, which is also the index of the next request.  The returned pair is
the projected records together with the total number of requests issued. -/
def fetchLoopFuel (srv : Nat → PageResponse) (total : Int) :
    Nat → Nat → List ProjRecord → Nat → Option (Except String (List ProjRecord × Nat))
  | k, fetched, acc, fuel =>
    if (fetched : Int) < total then
      match fuel with
      | 0 => none
      | fuel + 1 =>
        if (srv k).success = false then some (Except.error pageFailureMsg)
        else if (srv k).records.isEmpty then some (Except.ok (acc, k + 1))
        else fetchLoopFuel srv total (k + 1) (fetched + (srv k).records.length)
               (acc ++ (srv k).records.map project_record) fuel
    else some (Except.ok (acc, k))

/-- `fetch_all_projected_records` from the source, over a response stream:
request page 0; a falsy success flag is fatal; the reported total is
`result.total or result.records_total`, defaulting to the first batch size;
then keep requesting while the fetched count is below the total.  The `Nat`
in the result is the number of page requests issued. -/
def fetch_all_projected_records (srv : Nat → PageResponse) :
    Except String (List ProjRecord × Nat) :=
  let first := srv 0
  if first.success = false then Except.error initialFailureMsg
  else
    let records := first.records
    let projected := records.map project_record
    let total := (pyOrTotal first.totalField first.recordsTotalField).getD (records.length : Int)
    (fetchLoopFuel srv total 1 records.length projected
      ((total - (records.length : Int)).toNat)).getD (Except.error "fuel exhausted")

/-- The records the caller receives from a fetch result (an error delivers
no records). -/
def returnedRecords (r : Except String (List ProjRecord × Nat)) : List ProjRecord :=
  match r with
  | Except.ok p => p.1
  | Except.error _ => []

/-- The number of page requests a successful fetch issued. -/
def requestsMade (r : Except String (List ProjRecord × Nat)) : Nat :=
  match r with
  | Except.ok p => p.2
  | Except.error _ => 0

/-- Page `k` of a well-behaved session that reports total `T` and serves
full pages of size `ps`: the batch holds the records at global indices
`k*ps, ..., k*ps + min ps (T - k*ps) - 1`. -/
def fullPage (rawAt : Nat → RawRecord) (T ps k : Nat) : PageResponse :=
  ⟨true, some (T : Int), none,
    (List.range (min ps (T - k * ps))).map (fun i => rawAt (k * ps + i))⟩

/-- The full-pages server built from `fullPage`. -/
def fullPageSrv (rawAt : Nat → RawRecord) (T ps : Nat) : Nat → PageResponse :=
  fun k => fullPage rawAt T ps k

/-- Does a prefix of `h` agree with all of `n`? (helper for substring search). -/
def headAgrees : List Char → List Char → Bool
  | [], _ => true
  | _ :: _, [] => false
  | c :: cs, d :: ds => c == d && headAgrees cs ds

/-- Does `n` occur as a contiguous run inside the second list? -/
def hasSubList (n : List Char) : List Char → Bool
  | [] => n.isEmpty
  | c :: rest => headAgrees n (c :: rest) || hasSubList n rest

/-- Python substring test `n in s`. -/
def strHasSub (n s : String) : Bool :=
  hasSubList n.toList s.toList

/-- Python `str.lower()` (character-wise, over the embedded strings). -/
def lowerStr (s : String) : String :=
  String.mk (s.toList.map Char.toLower)

/-- Python `str.upper()` (character-wise, over the embedded strings). -/
def upperStr (s : String) : String :=
  String.mk (s.toList.map Char.toUpper)

/-- A worksheet: header labels and rows of cells (column `i` of a row is
cell `i`). -/
structure Sheet where
  header : List String
  rows : List (List PyVal)

/-- The per-school roll table produced by the extractor: the projected
header labels and, per retained row, the numeric school identifier with the
roll-band cell values. -/
structure RollTable where
  header : List String
  rows : List (Int × List PyVal)

/-- `ROLL_DATA_START_COLUMN` from the source. -/
def ROLL_DATA_START_COLUMN : String := "AY"

/-- `ROLL_DATA_END_COLUMN` from the source. -/
def ROLL_DATA_END_COLUMN : String := "BM"

/-- The school-identifier column heuristic of `load_roll_data`: the label,
lowercased, must contain both a "school" and an "id" token. -/
def isSchoolIdLabel (c : String) : Bool :=
  strHasSub "school" (lowerStr c) && strHasSub "id" (lowerStr c)

/-- The identifier column index: first header label matching the heuristic,
else (when the frame is non-empty on both axes, i.e. `not df.empty` with at
least one column) column 0. -/
def schoolIdIdx (sh : Sheet) : Option Nat :=
  match sh.header.findIdx? isSchoolIdLabel with
  | some i => some i
  | none => if sh.rows.isEmpty || sh.header.isEmpty then none else some 0

/-- The alphabetic label of a header: every non-alphabetic character
stripped (`[c for c in str(col) if c.isalpha()]`). -/
def alphaLabel (s : String) : String :=
  String.mk (s.toList.filter (fun c => c.isAlpha))

/-- Case-insensitive match of a derived alphabetic label against a target
band-boundary label. -/
def labelMatches (target : String) (c : String) : Bool :=
  upperStr (alphaLabel c) == upperStr target

/-- The enumeration loop of `load_roll_data`: runs over all labels without
breaking, so a later match overwrites an earlier one. -/
def lastMatchFrom (p : String → Bool) : Nat → Option Nat → List String → Option Nat
  | _, acc, [] => acc
  | i, acc, c :: rest => lastMatchFrom p (i + 1) (if p c then some i else acc) rest

/-- Index assigned to a band boundary by the source loop: the index of the
last label satisfying `p` (no `break` in the loop). -/
def lastMatchIdx (p : String → Bool) (cols : List String) : Option Nat :=
  lastMatchFrom p 0 none cols

/-- The column indices of the roll band `all_cols[start_idx:end_idx+1]`;
empty when either boundary is not found. -/
def bandIdxs (header : List String) : List Nat :=
  match lastMatchIdx (labelMatches ROLL_DATA_START_COLUMN) header,
        lastMatchIdx (labelMatches ROLL_DATA_END_COLUMN) header with
  | some s, some e => List.range' s (e + 1 - s)
  | _, _ => []

/-- Decimal-digit accumulator for integer parsing. -/
def parseNatAux : List Char → Nat → Option Nat
  | [], acc => some acc
  | c :: cs, acc =>
      if c.isDigit then parseNatAux cs (acc * 10 + (c.toNat - 48)) else none

/-- The integer reading of a cell string (the coercion the claims
exercise parses decimal integers, optionally negated; any other string is
not numeric). -/
def parseIntStr (s : String) : Option Int :=
  match s.toList with
  | [] => none
  | '-' :: rest =>
      if rest.isEmpty then none else (parseNatAux rest 0).map (fun n => -(n : Int))
  | l => (parseNatAux l 0).map (fun n => (n : Int))

/-- `pd.to_numeric(·, errors='coerce')` on an identifier cell, composed
with the `astype(int)` cast: integers stay, booleans become 0/1, numeric
strings parse, everything else is `NaN` (here `none`). -/
def pyToNumeric : PyVal → Option Int
  | PyVal.pint n => some n
  | PyVal.pbool b => some (if b then 1 else 0)
  | PyVal.pstr s => parseIntStr s
  | _ => none

/-- `load_roll_data` from the source on an already-resolved sheet: locate
the identifier column, locate the band, project to identifier plus band
(renaming the identifier to `School_Id`), coerce the identifier to numeric
and drop rows where the coercion fails.  The stages mirror the pandas
operations: column selection, `to_numeric`, `dropna`. -/
def load_roll_data (sh : Sheet) : Except String RollTable :=
  match schoolIdIdx sh with
  | none => Except.error "Error loading roll data: school id column not found"
  | some sid =>
    let band := bandIdxs sh.header
    let cols := sid :: band
    let selected := sh.rows.map (fun row => cols.map (fun i => row.getD i PyVal.pnone))
    let coerced := selected.map (fun r => (pyToNumeric (r.headD PyVal.pnone), r.tail))
    let kept := coerced.filterMap (fun rc => rc.1.map (fun n => (n, rc.2)))
    Except.ok ⟨"School_Id" :: band.map (fun i => sh.header.getD i ""), kept⟩

/-- The sheet of the spec scenario: header `[SchoolID, AX, AY, AZ, BM, BN]`
with one numeric-id row, one non-numeric-id row, one integer-id row. -/
def exampleSheet : Sheet :=
  ⟨["SchoolID", "AX", "AY", "AZ", "BM", "BN"],
   [[PyVal.pstr "123", PyVal.pint 1, PyVal.pint 2, PyVal.pint 3, PyVal.pint 4, PyVal.pint 5],
    [PyVal.pstr "abc", PyVal.pint 9, PyVal.pint 9, PyVal.pint 9, PyVal.pint 9, PyVal.pint 9],
    [PyVal.pint 77, PyVal.pint 6, PyVal.pint 7, PyVal.pint 8, PyVal.pint 9, PyVal.pint 10]]⟩

/-- A sheet whose derived alphabetic start label `AY` occurs twice (from
the distinct raw headers `AY1` and `AY2`): distinguishes first-occurrence
from last-occurrence boundary lookup. -/
def dupLabelSheet : Sheet :=
  ⟨["SchoolID", "AY1", "AY2", "BM"],
   [[PyVal.pint 1, PyVal.pint 10, PyVal.pint 20, PyVal.pint 30]]⟩

/-- A sheet with no `AY`/`BM` band labels at all. -/
def missingBandSheet : Sheet :=
  ⟨["School ID", "X", "Y"],
   [[PyVal.pstr "5", PyVal.pint 1, PyVal.pint 2],
    [PyVal.pstr "n/a", PyVal.pint 3, PyVal.pint 4]]⟩

/-- A registry (API) row as seen by the reconciler: the numeric school
identifier plus the remaining payload columns. -/
structure SchoolRow (α : Type) where
  school_id : Int
  payload : α
  deriving DecidableEq

/-- A roll-table row as seen by the reconciler: the numeric school
identifier plus the band columns. -/
structure RollRow (β : Type) where
  school_id : Int
  band : β
  deriving DecidableEq

/-- The output of `match_schools_with_rolls`: the merged rows (a registry
row with the attached roll band, `none` when unmatched — the pandas `NaN`
fill marker) and the two logged mismatch sets. -/
structure MatchResult (α β : Type) where
  merged : List (SchoolRow α × Option β)
  rollOnly : Finset Int
  apiOnly : Finset Int

/-- `match_schools_with_rolls` from the source: mismatch sets are the two
set differences of the identifier sets; the merge is
`df_schools.merge(df_rolls, on='School_Id', how='left')` — each registry
row in registry order, paired with every matching roll row in roll order,
or with the empty marker when no roll row matches. -/
def match_schools_with_rolls {α β : Type} (schools : List (SchoolRow α))
    (rolls : List (RollRow β)) : MatchResult α β :=
  ⟨schools.flatMap (fun s =>
      match rolls.filter (fun r => r.school_id == s.school_id) with
      | [] => [(s, none)]
      | ms => ms.map (fun m => (s, some m.band))),
   (rolls.map RollRow.school_id).toFinset \ (schools.map SchoolRow.school_id).toFinset,
   (schools.map SchoolRow.school_id).toFinset \ (rolls.map RollRow.school_id).toFinset⟩

/-- Registry table of the spec scenario: identifiers 1, 2, 3. -/
def scenarioSchools : List (SchoolRow Nat) :=
  [⟨1, 100⟩, ⟨2, 200⟩, ⟨3, 300⟩]

/-- Roll table of the spec scenario: identifiers 2, 3, 4. -/
def scenarioRolls : List (RollRow Nat) :=
  [⟨2, 20⟩, ⟨3, 30⟩, ⟨4, 40⟩]

/-- A one-row registry table. -/
def dupSchools : List (SchoolRow Nat) := [⟨1, 0⟩]

/-- A roll table with a duplicated identifier. -/
def dupRolls : List (RollRow Nat) := [⟨1, 10⟩, ⟨1, 20⟩]

/-- The characters the exporters replace in output base names
(the regex class in `re.sub(..., "_", base_name)`). -/
def ILLEGAL_FILENAME_CHARS : List Char :=
  ['\\', '/', ':', '*', '?', '"', '<', '>', '|']

/-- The character replacement step of the base-name sanitisation. -/
def sanitizeSub (s : String) : String :=
  String.mk (s.toList.map (fun c => if c ∈ ILLEGAL_FILENAME_CHARS then '_' else c))

/-- The fallback base name. -/
def DEFAULT_BASE_NAME : String := "schools_filtered"

/-- The base-name computation of `export_csv`:
`re.sub(r"[\\/:*?\"<>|]", "_", base_name).strip() or "schools_filtered"`. -/
def export_csv_base (s : String) : String :=
  let b := pyStrip (sanitizeSub s)
  if b = "" then DEFAULT_BASE_NAME else b

/-- The base-name computation of `export_excel_table` (same expression). -/
def export_excel_base (s : String) : String :=
  let b := pyStrip (sanitizeSub s)
  if b = "" then DEFAULT_BASE_NAME else b

/-- An in-memory table (pandas DataFrame) as the exporters see it: header
labels and cell rows. -/
structure Frame where
  header : List String
  cells : List (List PyVal)

/-- The export alias of a column name (`FIELD_ALIASES.get(col, col)`; the
static alias table maps only `School_Id`, to `MoEID`). -/
def aliasOf (c : String) : String :=
  if c = "School_Id" then "MoEID" else c

/-- Renaming every column of a frame through the alias table
(`df.rename(columns=...)`, which touches only the header). -/
def applyAliases (f : Frame) : Frame :=
  ⟨f.header.map aliasOf, f.cells⟩

/-- The default frame for out-of-range store reads. -/
def emptyFrame : Frame := ⟨[], []⟩

/-- A store of frames: Python objects addressed by allocation order.  The
exporters are modelled against this store so that mutation (or its
absence) is observable. -/
abbrev Store : Type := List Frame

/-- Allocate a fresh frame in the store, returning its address. -/
def allocFrame (st : Store) (f : Frame) : Store × Nat :=
  (st ++ [f], st.length)

/-- `df.copy()`: allocates a new frame with the same value. -/
def copyFrame (st : Store) (a : Nat) : Store × Nat :=
  allocFrame st (st.getD a emptyFrame)

/-- `df.rename(columns=aliases)` without `inplace`: allocates a new,
renamed frame and leaves the source frame untouched. -/
def renameFrame (st : Store) (a : Nat) : Store × Nat :=
  allocFrame st (applyAliases (st.getD a emptyFrame))

/-- The frame operations `export_csv` performs on its input table:
`df_export = df.copy()` then `df_export = df_export.rename(columns=...)`.
Returns the store after the call and the address of the exported frame. -/
def export_csv_frames (st : Store) (a : Nat) : Store × Nat :=
  let s1 := copyFrame st a
  renameFrame s1.1 s1.2

/-- The frame operations `export_excel_table` performs on its input table
(identical copy-then-rename sequence). -/
def export_excel_frames (st : Store) (a : Nat) : Store × Nat :=
  let s1 := copyFrame st a
  renameFrame s1.1 s1.2

/-- A concrete frame for witnesses. -/
def testFrame : Frame :=
  ⟨["School_Id", "Org_Name"], [[PyVal.pint 1, PyVal.pstr "Kea College"]]⟩

/-- Spec-side blank predicate (the Normalizer contract): a value is blank
when it is `null`, a string that is empty after trimming, or an empty
composite. -/
def isBlankVal : PyVal → Bool
  | PyVal.pnone => true
  | PyVal.pstr s => pyStrip s == ""
  | PyVal.plist l => l.isEmpty
  | PyVal.pdict d => d.isEmpty
  | _ => false

/-- Spec-side trimming: strings are trimmed, everything else unchanged. -/
def pyTrimVal : PyVal → PyVal
  | PyVal.pstr s => PyVal.pstr (pyStrip s)
  | v => v

/-- A value that `normalize_value` handles by the final catch-all return:
not `None`, not a string, not a list/dict. -/
def isPassthroughScalar : PyVal → Bool
  | PyVal.pint _ => true
  | PyVal.pbool _ => true
  | _ => false

/-- A raw record for witnesses: `Org_Name` carries an untrimmed string,
everything else is missing. -/
def exampleRawRecord : RawRecord :=
  fun f => if f = "Org_Name" then PyVal.pstr "  Kea College  " else PyVal.pnone

/-- Session for the full-page witness: record `i` is the integer `i`. -/
def exampleRawAt : Nat → RawRecord :=
  fun i _ => PyVal.pint (i : Int)

/-- A session reporting total 2 but serving undersized batches of one
record each (page size irrelevant to the code path). -/
def undersizedSrv : Nat → PageResponse :=
  fun k =>
    if k = 0 then ⟨true, some 2, none, [exampleRawAt 0]⟩
    else if k = 1 then ⟨true, none, none, [exampleRawAt 1]⟩
    else ⟨true, none, none, []⟩

/-- A session reporting total 0 with an empty first page. -/
def zeroTotalSrv : Nat → PageResponse :=
  fun _ => ⟨true, some 0, none, []⟩

/-- A session whose every page reports failure. -/
def failingSrv : Nat → PageResponse :=
  fun _ => ⟨false, none, none, []⟩

/-! ### Helper lemmas about whitespace stripping -/

theorem dropWhile_cons_not {α : Type} (p : α → Bool) :
    ∀ (l : List α) (a : α) (t : List α), l.dropWhile p = a :: t → p a = false := by
  intro l
  induction l with
  | nil => intro a t h; simp [List.dropWhile] at h
  | cons c cs ih =>
    intro a t h
    by_cases hc : p c
    · rw [List.dropWhile_cons_of_pos hc] at h
      exact ih a t h
    · rw [List.dropWhile_cons_of_neg hc] at h
      cases h
      simpa using hc

theorem mem_dropWhile_of_not {α : Type} (p : α → Bool) :
    ∀ (l : List α) (a : α), a ∈ l → p a = false → a ∈ l.dropWhile p := by
  intro l
  induction l with
  | nil => intro a h; cases h
  | cons c cs ih =>
    intro a h hpa
    by_cases hc : p c
    · rw [List.dropWhile_cons_of_pos hc]
      rcases List.mem_cons.mp h with rfl | h2
      · rw [hpa] at hc; cases hc
      · exact ih a h2 hpa
    · rw [List.dropWhile_cons_of_neg hc]
      exact h

theorem all_of_dropWhile_nil {α : Type} (p : α → Bool) :
    ∀ (l : List α), l.dropWhile p = [] → ∀ a ∈ l, p a = true := by
  intro l
  induction l with
  | nil => intro _ a h; cases h
  | cons c cs ih =>
    intro h a ha
    by_cases hc : p c
    · rw [List.dropWhile_cons_of_pos hc] at h
      rcases List.mem_cons.mp ha with rfl | h2
      · exact hc
      · exact ih h a h2
    · rw [List.dropWhile_cons_of_neg hc] at h
      cases h

theorem dropWhile_nil_of_all {α : Type} (p : α → Bool) :
    ∀ (l : List α), (∀ a ∈ l, p a = true) → l.dropWhile p = [] := by
  intro l
  induction l with
  | nil => intro _; rfl
  | cons c cs ih =>
    intro h
    rw [List.dropWhile_cons_of_pos (h c (List.mem_cons_self c cs))]
    exact ih (fun a ha => h a (List.mem_cons_of_mem c ha))

theorem stripChars_stripChars_ne_nil (l : List Char) (h : stripChars l ≠ []) :
    stripChars (stripChars l) ≠ [] := by
  rcases hr : stripChars l with _ | ⟨c, t⟩
  · exact absurd hr h
  · have hc : c.isWhitespace = false := by
      unfold stripChars at hr
      exact dropWhile_cons_not _ _ c t hr
    intro hnil
    unfold stripChars at hnil
    have hmemc : c ∈ (c :: t : List Char) := List.mem_cons_self c t
    have h1 : c ∈ (c :: t : List Char).reverse := List.mem_reverse.mpr hmemc
    have h2 : c ∈ (c :: t : List Char).reverse.dropWhile Char.isWhitespace :=
      mem_dropWhile_of_not _ _ c h1 hc
    have h3 : c ∈ ((c :: t : List Char).reverse.dropWhile Char.isWhitespace).reverse :=
      List.mem_reverse.mpr h2
    have := all_of_dropWhile_nil Char.isWhitespace _ hnil c h3
    rw [hc] at this
    cases this

theorem string_mk_eq_empty_iff (l : List Char) : String.mk l = "" ↔ l = [] := by
  constructor
  · intro h
    have : (String.mk l).toList = ("" : String).toList := by rw [h]
    simpa using this
  · intro h; rw [h]

theorem pyStrip_pyStrip_ne (s : String) (h : pyStrip s ≠ "") : pyStrip (pyStrip s) ≠ "" := by
  have hs : stripChars s.toList ≠ [] := by
    intro hnil
    apply h
    unfold pyStrip
    rw [hnil]
  intro hcontra
  apply stripChars_stripChars_ne_nil s.toList hs
  unfold pyStrip at hcontra
  rw [string_mk_eq_empty_iff] at hcontra
  rw [show (String.mk (stripChars s.toList)).toList = stripChars s.toList from rfl] at hcontra
  exact hcontra

theorem pyStrip_eq_empty_of_all_ws (s : String)
    (h : ∀ c ∈ s.toList, c.isWhitespace = true) : pyStrip s = "" := by
  unfold pyStrip
  rw [string_mk_eq_empty_iff]
  unfold stripChars
  have h1 : s.toList.reverse.dropWhile Char.isWhitespace = [] :=
    dropWhile_nil_of_all _ _ (fun a ha => h a (List.mem_reverse.mp ha))
  rw [h1]
  rfl

/-! ### The Normalizer against its contract -/

theorem normalize_value_eq_spec (v : PyVal) :
    normalize_value v = (if isBlankVal v = true then PyVal.pstr "-" else pyTrimVal v)
    ∧ isBlankVal (normalize_value v) = false := by
  cases v with
  | pnone => exact ⟨rfl, rfl⟩
  | pbool b => exact ⟨rfl, rfl⟩
  | pint n => exact ⟨rfl, rfl⟩
  | pstr s =>
    by_cases h : pyStrip s = ""
    · constructor
      · simp [normalize_value, isBlankVal, pyTrimVal, h]
      · simp only [normalize_value, h, if_pos, isBlankVal]
        decide
    · constructor
      · simp [normalize_value, isBlankVal, pyTrimVal, h]
      · simp [normalize_value, h, isBlankVal]
        exact pyStrip_pyStrip_ne s h
  | plist l =>
    cases l with
    | nil => exact ⟨rfl, rfl⟩
    | cons a t =>
      constructor
      · simp [normalize_value, isBlankVal, pyTrimVal]
      · simp [normalize_value, isBlankVal]
  | pdict d =>
    cases d with
    | nil => exact ⟨rfl, rfl⟩
    | cons a t =>
      constructor
      · simp [normalize_value, isBlankVal, pyTrimVal]
      · simp [normalize_value, isBlankVal]

theorem lookup_map_pair {γ : Type} (g : String → γ) :
    ∀ (l : List String) (f : String), f ∈ l →
      (l.map (fun x => (x, g x))).lookup f = some (g f) := by
  intro l
  induction l with
  | nil => intro f h; cases h
  | cons a t ih =>
    intro f hf
    by_cases h : f = a
    · subst h
      simp [List.lookup]
    · rcases List.mem_cons.mp hf with rfl | h2
      · exact absurd rfl h
      · have hba : (f == a) = false := beq_eq_false_iff_ne.mpr h
        simp only [List.map_cons, List.lookup, hba]
        exact ih f h2

/-- C4: for every raw record, `project_record` yields exactly the fixed
34-field key list (no extra keys, no missing keys), no field value is
blank (null / empty-after-trimming string / empty composite), and each
field holds the placeholder "-" when the raw value was blank and the raw
value (trimmed if a string) otherwise. -/
theorem project_record_spec (rec : RawRecord) :
    ((project_record rec).map Prod.fst = FIELDS ∧ FIELDS.length = 34)
    ∧ (∀ i : Nat, i < (project_record rec).length →
        isBlankVal ((project_record rec).getD i ("", PyVal.pnone)).2 = false)
    ∧ (∀ f ∈ FIELDS, (project_record rec).lookup f
        = some (if isBlankVal (rec f) = true then PyVal.pstr "-" else pyTrimVal (rec f))) := by
  refine ⟨⟨?_, rfl⟩, ?_, ?_⟩
  · rw [show project_record rec = FIELDS.map (fun f => (f, normalize_value (rec f))) from rfl,
      List.map_map,
      show (Prod.fst ∘ fun f => (f, normalize_value (rec f))) = id from rfl, List.map_id]
  · intro i hi
    have h1 : (project_record rec).getD i ("", PyVal.pnone) = (project_record rec)[i] :=
      List.getD_eq_getElem _ _ hi
    rw [h1]
    have h2 : (project_record rec)[i] ∈ project_record rec := List.getElem_mem hi
    rcases List.mem_map.mp h2 with ⟨f, _, hf⟩
    rw [← hf]
    exact (normalize_value_eq_spec (rec f)).2
  · intro f hf
    rw [show project_record rec = FIELDS.map (fun x => (x, normalize_value (rec x))) from rfl]
    rw [lookup_map_pair _ FIELDS f hf]
    rw [(normalize_value_eq_spec (rec f)).1]

/-- C4 witness: instantiation at a concrete raw record. -/
theorem project_record_spec_witness :
    ((0 : Nat) < (project_record exampleRawRecord).length
      ∧ isBlankVal ((project_record exampleRawRecord).getD 0 ("", PyVal.pnone)).2 = false)
    ∧ ("Org_Name" ∈ FIELDS
      ∧ (project_record exampleRawRecord).lookup "Org_Name" = some (PyVal.pstr "Kea College")) := by
  refine ⟨⟨?_, ?_⟩, ?_, ?_⟩
  · decide
  · exact (project_record_spec exampleRawRecord).2.1 0 (by decide)
  · decide
  · exact (project_record_spec exampleRawRecord).2.2 "Org_Name" (by decide)

/-- C9: `normalize_value` passes every value that is not None, not a
string and not a composite through unchanged; in particular the falsy
scalars `0` and `False` are never replaced by the placeholder. -/
theorem normalize_scalar_passthrough :
    (∀ v : PyVal, isPassthroughScalar v = true → normalize_value v = v)
    ∧ normalize_value (PyVal.pint 0) = PyVal.pint 0
    ∧ normalize_value (PyVal.pbool false) = PyVal.pbool false := by
  refine ⟨?_, rfl, rfl⟩
  intro v h
  cases v with
  | pnone => cases h
  | pbool b => rfl
  | pint n => rfl
  | pstr s => cases h
  | plist l => cases h
  | pdict d => cases h

/-- C9 witness: instantiation at the integer 0. -/
theorem normalize_scalar_passthrough_witness :
    isPassthroughScalar (PyVal.pint 0) = true
    ∧ normalize_value (PyVal.pint 0) = PyVal.pint 0 :=
  ⟨rfl, normalize_scalar_passthrough.1 (PyVal.pint 0) rfl⟩

/-! ### Export base-name sanitisation -/

theorem whitespace_not_illegal (c : Char) (h : c.isWhitespace = true) :
    c ∉ ILLEGAL_FILENAME_CHARS := by
  intro hmem
  simp only [ILLEGAL_FILENAME_CHARS, List.mem_cons, List.not_mem_nil, or_false] at hmem
  rcases hmem with rfl | rfl | rfl | rfl | rfl | rfl | rfl | rfl | rfl <;>
    exact absurd h (by decide)

/-- C6 (amended): the sanitisation replaces each of the nine illegal
characters with an underscore, the same rule governs `export_csv` and
`export_excel_table`, the concrete scenario base name maps as the spec
says, and the fallback to the default base name fires for a base name
whose characters are all whitespace (not for an all-illegal name, which
becomes underscores). -/
theorem export_base_name_spec :
    (∀ s : String, export_csv_base s = export_excel_base s)
    ∧ export_csv_base "My:Export*2025" = "My_Export_2025"
    ∧ (∀ s : String, (∀ c ∈ s.toList, c.isWhitespace = true) →
        export_csv_base s = DEFAULT_BASE_NAME)
    ∧ (∀ c ∈ ILLEGAL_FILENAME_CHARS, sanitizeSub (String.mk [c]) = "_") := by
  refine ⟨fun s => rfl, by decide, ?_, ?_⟩
  · intro s h
    have hchars : ∀ c ∈ (sanitizeSub s).toList, c.isWhitespace = true := by
      intro c hc
      rw [show (sanitizeSub s).toList
          = s.toList.map (fun c => if c ∈ ILLEGAL_FILENAME_CHARS then '_' else c) from rfl] at hc
      rcases List.mem_map.mp hc with ⟨c0, hc0, hceq⟩
      have hw : c0.isWhitespace = true := h c0 hc0
      rw [if_neg (whitespace_not_illegal c0 hw)] at hceq
      rw [← hceq]
      exact hw
    have hempty : pyStrip (sanitizeSub s) = "" := pyStrip_eq_empty_of_all_ws _ hchars
    unfold export_csv_base
    simp [hempty]
  · intro c hc
    simp only [ILLEGAL_FILENAME_CHARS, List.mem_cons, List.not_mem_nil, or_false] at hc
    rcases hc with rfl | rfl | rfl | rfl | rfl | rfl | rfl | rfl | rfl <;> rfl

/-- C6 witness: an all-whitespace base name falls back to the default. -/
theorem export_base_name_spec_witness :
    (∀ c ∈ ("  " : String).toList, c.isWhitespace = true)
    ∧ export_csv_base "  " = DEFAULT_BASE_NAME :=
  ⟨by decide, export_base_name_spec.2.2.1 "  " (by decide)⟩

/-- C6 counterexample: the base name ":" consists only of illegal
characters, yet it sanitises to "_", not to the fallback
"schools_filtered" (the strip step removes only whitespace). -/
theorem sanitize_all_illegal_counterexample :
    export_csv_base ":" = "_"
    ∧ ("_" : String) ≠ DEFAULT_BASE_NAME
    ∧ (":" : String).toList.all (fun c => decide (c ∈ ILLEGAL_FILENAME_CHARS)) = true := by
  exact ⟨by decide, by decide, by decide⟩

/-! ### Exporters do not mutate their input frame -/

/-- C10: after the copy-then-rename frame operations of `export_csv` and
`export_excel_table`, the caller's frame is unchanged in the store, and
the exported frame is the alias-renamed copy. -/
theorem export_preserves_input_frame :
    ∀ (st : Store) (a : Nat), a < st.length →
      ((export_csv_frames st a).1[a]? = st[a]?
        ∧ (export_excel_frames st a).1[a]? = st[a]?)
      ∧ ((export_csv_frames st a).1[(export_csv_frames st a).2]?
            = some (applyAliases (st.getD a emptyFrame))
        ∧ (export_excel_frames st a).1[(export_excel_frames st a).2]?
            = some (applyAliases (st.getD a emptyFrame))) := by
  intro st a ha
  have hget : (st ++ [st.getD a emptyFrame]).getD st.length emptyFrame = st.getD a emptyFrame := by
    rw [List.getD_eq_getElem?_getD, List.getElem?_concat_length]
    rfl
  have hshape : export_csv_frames st a
      = ((st ++ [st.getD a emptyFrame]) ++ [applyAliases (st.getD a emptyFrame)],
         (st ++ [st.getD a emptyFrame]).length) := by
    simp only [export_csv_frames, copyFrame, renameFrame, allocFrame]
    rw [hget]
  have hshape2 : export_excel_frames st a
      = ((st ++ [st.getD a emptyFrame]) ++ [applyAliases (st.getD a emptyFrame)],
         (st ++ [st.getD a emptyFrame]).length) := by
    simp only [export_excel_frames, copyFrame, renameFrame, allocFrame]
    rw [hget]
  have ha2 : a < (st ++ [st.getD a emptyFrame]).length := by
    rw [List.length_append]
    omega
  have hpres : ((st ++ [st.getD a emptyFrame]) ++ [applyAliases (st.getD a emptyFrame)])[a]?
      = st[a]? := by
    rw [List.getElem?_append_left ha2, List.getElem?_append_left ha]
  have hexp : ((st ++ [st.getD a emptyFrame])
        ++ [applyAliases (st.getD a emptyFrame)])[(st ++ [st.getD a emptyFrame]).length]?
      = some (applyAliases (st.getD a emptyFrame)) :=
    List.getElem?_concat_length _ _
  rw [hshape, hshape2]
  exact ⟨⟨hpres, hpres⟩, hexp, hexp⟩

/-- C10 witness: instantiation at a one-frame store. -/
theorem export_preserves_input_frame_witness :
    (0 : Nat) < ([testFrame] : Store).length
    ∧ ((export_csv_frames [testFrame] 0).1[0]? = ([testFrame] : Store)[0]?
        ∧ (export_excel_frames [testFrame] 0).1[0]? = ([testFrame] : Store)[0]?)
    ∧ ((export_csv_frames [testFrame] 0).1[(export_csv_frames [testFrame] 0).2]?
          = some (applyAliases (([testFrame] : Store).getD 0 emptyFrame))
        ∧ (export_excel_frames [testFrame] 0).1[(export_excel_frames [testFrame] 0).2]?
          = some (applyAliases (([testFrame] : Store).getD 0 emptyFrame))) :=
  ⟨by decide, (export_preserves_input_frame [testFrame] 0 (by decide)).1,
    (export_preserves_input_frame [testFrame] 0 (by decide)).2⟩

/-! ### Fetch-loop unfolding lemmas -/

theorem fetchLoopFuel_exit (srv : Nat → PageResponse) (total : Int) (k fetched : Nat)
    (acc : List ProjRecord) (fuel : Nat) (h : ¬ ((fetched : Int) < total)) :
    fetchLoopFuel srv total k fetched acc fuel = some (Except.ok (acc, k)) := by
  rw [fetchLoopFuel.eq_def]
  simp [h]

theorem fetchLoopFuel_fail (srv : Nat → PageResponse) (total : Int) (k fetched : Nat)
    (acc : List ProjRecord) (fuel : Nat) (h : (fetched : Int) < total)
    (hs : (srv k).success = false) :
    fetchLoopFuel srv total k fetched acc (fuel + 1) = some (Except.error pageFailureMsg) := by
  rw [fetchLoopFuel.eq_def]
  simp [h, hs]

theorem fetchLoopFuel_break (srv : Nat → PageResponse) (total : Int) (k fetched : Nat)
    (acc : List ProjRecord) (fuel : Nat) (h : (fetched : Int) < total)
    (hs : (srv k).success = true) (hr : (srv k).records = []) :
    fetchLoopFuel srv total k fetched acc (fuel + 1) = some (Except.ok (acc, k + 1)) := by
  rw [fetchLoopFuel.eq_def]
  simp [h, hs, hr]

theorem fetchLoopFuel_step (srv : Nat → PageResponse) (total : Int) (k fetched : Nat)
    (acc : List ProjRecord) (fuel : Nat) (h : (fetched : Int) < total)
    (hs : (srv k).success = true) (hr : (srv k).records ≠ []) :
    fetchLoopFuel srv total k fetched acc (fuel + 1)
      = fetchLoopFuel srv total (k + 1) (fetched + (srv k).records.length)
          (acc ++ (srv k).records.map project_record) fuel := by
  rw [fetchLoopFuel.eq_def]
  simp [h, hs, List.isEmpty_iff, hr]

theorem fetchLoopFuel_ne_none (srv : Nat → PageResponse) (total : Int) :
    ∀ (fuel k fetched : Nat) (acc : List ProjRecord),
      (total - (fetched : Int)).toNat ≤ fuel →
      fetchLoopFuel srv total k fetched acc fuel ≠ none := by
  intro fuel
  induction fuel with
  | zero =>
    intro k fetched acc hb
    have h : ¬ ((fetched : Int) < total) := by omega
    rw [fetchLoopFuel_exit srv total k fetched acc 0 h]
    simp
  | succ fuel ih =>
    intro k fetched acc hb
    by_cases hlt : (fetched : Int) < total
    · by_cases hs : (srv k).success = false
      · rw [fetchLoopFuel_fail srv total k fetched acc fuel hlt hs]
        simp
      · have hs' : (srv k).success = true := by
          cases h : (srv k).success
          · exact absurd h hs
          · rfl
        rcases hr : (srv k).records with _ | ⟨a, t⟩
        · rw [fetchLoopFuel_break srv total k fetched acc fuel hlt hs' hr]
          simp
        · rw [fetchLoopFuel_step srv total k fetched acc fuel hlt hs' (by rw [hr]; simp)]
          apply ih
          have hlen : 1 ≤ (srv k).records.length := by rw [hr]; simp
          omega
    · rw [fetchLoopFuel_exit srv total k fetched acc (fuel + 1) hlt]
      simp

theorem fetchLoopFuel_stable (srv : Nat → PageResponse) (total : Int) :
    ∀ (fuel₁ fuel₂ k fetched : Nat) (acc : List ProjRecord),
      (total - (fetched : Int)).toNat ≤ fuel₁ →
      (total - (fetched : Int)).toNat ≤ fuel₂ →
      fetchLoopFuel srv total k fetched acc fuel₁ = fetchLoopFuel srv total k fetched acc fuel₂ := by
  intro fuel₁
  induction fuel₁ with
  | zero =>
    intro fuel₂ k fetched acc hb₁ hb₂
    have h : ¬ ((fetched : Int) < total) := by omega
    rw [fetchLoopFuel_exit srv total k fetched acc 0 h,
        fetchLoopFuel_exit srv total k fetched acc fuel₂ h]
  | succ fuel₁ ih =>
    intro fuel₂ k fetched acc hb₁ hb₂
    by_cases hlt : (fetched : Int) < total
    · have hbpos : 1 ≤ (total - (fetched : Int)).toNat := by omega
      cases fuel₂ with
      | zero => omega
      | succ fuel₂ =>
        by_cases hs : (srv k).success = false
        · rw [fetchLoopFuel_fail srv total k fetched acc fuel₁ hlt hs,
              fetchLoopFuel_fail srv total k fetched acc fuel₂ hlt hs]
        · have hs' : (srv k).success = true := by
            cases h : (srv k).success
            · exact absurd h hs
            · rfl
          rcases hr : (srv k).records with _ | ⟨a, t⟩
          · rw [fetchLoopFuel_break srv total k fetched acc fuel₁ hlt hs' hr,
                fetchLoopFuel_break srv total k fetched acc fuel₂ hlt hs' hr]
          · have hrne : (srv k).records ≠ [] := by rw [hr]; simp
            rw [fetchLoopFuel_step srv total k fetched acc fuel₁ hlt hs' hrne,
                fetchLoopFuel_step srv total k fetched acc fuel₂ hlt hs' hrne]
            apply ih
            · have hlen : 1 ≤ (srv k).records.length := by rw [hr]; simp
              omega
            · have hlen : 1 ≤ (srv k).records.length := by rw [hr]; simp
              omega
    · rw [fetchLoopFuel_exit srv total k fetched acc (fuel₁ + 1) hlt,
          fetchLoopFuel_exit srv total k fetched acc fuel₂ hlt]

/-- C8: the fetch loop terminates within `total - fetched` iterations for
every reported total and every response stream (the explicit bound is
enough fuel, and any larger fuel computes the same result); a page with
zero records while the count is still below the total stops the loop and
returns the records accumulated so far after that one request; and every
non-empty page strictly increases the fetched count. -/
theorem fetch_loop_terminates (srv : Nat → PageResponse) (total : Int)
    (k fetched : Nat) (acc : List ProjRecord) (fuel : Nat) :
    ((total - (fetched : Int)).toNat ≤ fuel →
      (fetchLoopFuel srv total k fetched acc fuel
        = fetchLoopFuel srv total k fetched acc ((total - (fetched : Int)).toNat)
       ∧ fetchLoopFuel srv total k fetched acc fuel ≠ none))
    ∧ ((fetched : Int) < total → (srv k).success = true → (srv k).records = [] →
        fetchLoopFuel srv total k fetched acc (fuel + 1) = some (Except.ok (acc, k + 1)))
    ∧ ((fetched : Int) < total → (srv k).success = true → (srv k).records ≠ [] →
        (fetchLoopFuel srv total k fetched acc (fuel + 1)
          = fetchLoopFuel srv total (k + 1) (fetched + (srv k).records.length)
              (acc ++ (srv k).records.map project_record) fuel
         ∧ fetched < fetched + (srv k).records.length)) := by
  refine ⟨?_, ?_, ?_⟩
  · intro hb
    exact ⟨fetchLoopFuel_stable srv total fuel _ k fetched acc hb le_rfl,
           fetchLoopFuel_ne_none srv total fuel k fetched acc hb⟩
  · intro hlt hs hr
    exact fetchLoopFuel_break srv total k fetched acc fuel hlt hs hr
  · intro hlt hs hr
    refine ⟨fetchLoopFuel_step srv total k fetched acc fuel hlt hs hr, ?_⟩
    have hlen : 1 ≤ (srv k).records.length := List.length_pos.mpr hr
    omega

/-- C8 witness: instantiations of the three parts at concrete sessions. -/
theorem fetch_loop_terminates_witness :
    (((5 : Int) - ((0 : Nat) : Int)).toNat ≤ 5
      ∧ fetchLoopFuel zeroTotalSrv 5 0 0 [] 5 ≠ none)
    ∧ fetchLoopFuel zeroTotalSrv 5 0 0 [] 1 = some (Except.ok ([], 1))
    ∧ fetchLoopFuel undersizedSrv 5 0 0 [] 1
        = fetchLoopFuel undersizedSrv 5 1 (0 + (undersizedSrv 0).records.length)
            ([] ++ (undersizedSrv 0).records.map project_record) 0 :=
  ⟨⟨by decide, ((fetch_loop_terminates zeroTotalSrv 5 0 0 [] 5).1 (by decide)).2⟩,
   (fetch_loop_terminates zeroTotalSrv 5 0 0 [] 0).2.1 (by decide) rfl rfl,
   ((fetch_loop_terminates undersizedSrv 5 0 0 [] 0).2.2 (by decide) rfl
      (List.cons_ne_nil _ _)).1⟩

/-- C5: a falsy success flag on the first page makes the whole fetch
fail with an error (the caller receives zero records), and a falsy
success flag on the next requested page makes the loop fail with an
error; an error result delivers zero records. -/
theorem fetch_failure_aborts (srv : Nat → PageResponse) :
    ((srv 0).success = false →
      (fetch_all_projected_records srv = Except.error initialFailureMsg
       ∧ returnedRecords (fetch_all_projected_records srv) = []))
    ∧ (∀ (total : Int) (k fetched : Nat) (acc : List ProjRecord) (fuel : Nat),
        (fetched : Int) < total → (srv k).success = false →
        fetchLoopFuel srv total k fetched acc (fuel + 1) = some (Except.error pageFailureMsg))
    ∧ (∀ e : String, returnedRecords (Except.error e) = []) := by
  refine ⟨?_, ?_, fun e => rfl⟩
  · intro h
    have h1 : fetch_all_projected_records srv = Except.error initialFailureMsg := by
      simp [fetch_all_projected_records, h]
    exact ⟨h1, by rw [h1]; rfl⟩
  · intro total k fetched acc fuel hlt hs
    exact fetchLoopFuel_fail srv total k fetched acc fuel hlt hs

/-- C5 witness: instantiation at the all-failing session. -/
theorem fetch_failure_aborts_witness :
    ((failingSrv 0).success = false
      ∧ fetch_all_projected_records failingSrv = Except.error initialFailureMsg
      ∧ returnedRecords (fetch_all_projected_records failingSrv) = [])
    ∧ (((0 : Nat) : Int) < (5 : Int)
      ∧ fetchLoopFuel failingSrv 5 2 0 [] 1 = some (Except.error pageFailureMsg)) :=
  ⟨⟨rfl, (fetch_failure_aborts failingSrv).1 rfl⟩,
   ⟨by decide, (fetch_failure_aborts failingSrv).2.1 5 2 0 [] 0 (by decide) rfl⟩⟩

/-! ### Fetch over a well-behaved full-page session -/

theorem ceil_div_step (ps r : Nat) (hps : 0 < ps) (hr : 0 < r) :
    (r + ps - 1) / ps = 1 + (r - ps + ps - 1) / ps := by
  have h1 : r + ps - 1 = (r - 1) + ps := by omega
  rw [h1, Nat.add_div_right _ hps]
  rcases le_or_lt r ps with h | h
  · have h2 : r - ps + ps - 1 = ps - 1 := by omega
    rw [h2, Nat.div_eq_of_lt (show r - 1 < ps by omega),
        Nat.div_eq_of_lt (show ps - 1 < ps by omega)]
  · have h2 : r - ps + ps - 1 = r - 1 := by omega
    rw [h2, Nat.add_comm]

theorem ceil_final (ps T : Nat) (hps : 0 < ps) :
    1 + (T - ps + ps - 1) / ps = max 1 ((T + ps - 1) / ps) := by
  rcases Nat.eq_zero_or_pos T with rfl | hT
  · have h0 : (0 : Nat) - ps + ps - 1 = ps - 1 := by omega
    rw [h0, Nat.div_eq_of_lt (show ps - 1 < ps by omega),
        Nat.div_eq_of_lt (show 0 + ps - 1 < ps by omega)]
    omega
  · rw [← ceil_div_step ps T hps hT]
    exact (Nat.max_eq_right ((Nat.one_le_div_iff hps).mpr (by omega))).symm

theorem fetchLoopFuel_fullPages (rawAt : Nat → RawRecord) (T ps : Nat)
    (srv : Nat → PageResponse) (hps : 0 < ps)
    (hsrv : ∀ k, k = 0 ∨ k * ps < T → srv k = fullPage rawAt T ps k) :
    ∀ (fuel r k : Nat), 1 ≤ k → r = T - k * ps → r ≤ fuel →
      fetchLoopFuel srv (T : Int) k (min (k * ps) T)
          ((List.range (min (k * ps) T)).map (fun i => project_record (rawAt i))) fuel
        = some (Except.ok ((List.range T).map (fun i => project_record (rawAt i)),
            k + (r + ps - 1) / ps)) := by
  intro fuel
  induction fuel with
  | zero =>
    intro r k hk hr hrf
    have hr0 : r = 0 := by omega
    have hTk : T ≤ k * ps := by omega
    have hmin : min (k * ps) T = T := by omega
    rw [hmin, fetchLoopFuel_exit srv (T : Int) k T _ 0 (by exact_mod_cast Nat.lt_irrefl T)]
    have hreq : k + (r + ps - 1) / ps = k := by
      rw [hr0, Nat.div_eq_of_lt (show 0 + ps - 1 < ps by omega), Nat.add_zero]
    rw [hreq]
  | succ fuel ih =>
    intro r k hk hr hrf
    by_cases hTk : T ≤ k * ps
    · have hr0 : r = 0 := by omega
      have hmin : min (k * ps) T = T := by omega
      rw [hmin, fetchLoopFuel_exit srv (T : Int) k T _ (fuel + 1)
        (by exact_mod_cast Nat.lt_irrefl T)]
      have hreq : k + (r + ps - 1) / ps = k := by
        rw [hr0, Nat.div_eq_of_lt (show 0 + ps - 1 < ps by omega), Nat.add_zero]
      rw [hreq]
    · have hkT : k * ps < T := by omega
      have hmin : min (k * ps) T = k * ps := by omega
      have hlt : ((min (k * ps) T : Nat) : Int) < (T : Int) := by
        rw [hmin]; exact_mod_cast hkT
      have hpage : srv k = fullPage rawAt T ps k := hsrv k (Or.inr hkT)
      have hs : (srv k).success = true := by rw [hpage]; rfl
      have hrecs : (srv k).records
          = (List.range (min ps (T - k * ps))).map (fun i => rawAt (k * ps + i)) := by
        rw [hpage]; rfl
      have hm1 : 1 ≤ min ps (T - k * ps) := by omega
      have hrne : (srv k).records ≠ [] := by
        rw [hrecs]
        simp only [ne_eq, List.map_eq_nil_iff, List.range_eq_nil]
        omega
      rw [fetchLoopFuel_step srv (T : Int) k _ _ fuel hlt hs hrne]
      have hlen : (srv k).records.length = min ps (T - k * ps) := by
        rw [hrecs]; simp
      have hfetched : min (k * ps) T + min ps (T - k * ps) = min ((k + 1) * ps) T := by
        rw [hmin, Nat.succ_mul]; omega
      have hacc : (List.range (min (k * ps) T)).map (fun i => project_record (rawAt i))
            ++ (srv k).records.map project_record
          = (List.range (min ((k + 1) * ps) T)).map (fun i => project_record (rawAt i)) := by
        rw [hmin, hrecs, List.map_map]
        have hsum : min ((k + 1) * ps) T = k * ps + min ps (T - k * ps) := by
          rw [Nat.succ_mul]; omega
        rw [hsum, List.range_add, List.map_append, List.map_map]
        rfl
      rw [hlen, hfetched, hacc]
      have hbound : T - (k + 1) * ps ≤ fuel := by
        rw [Nat.succ_mul]; omega
      have hceil : k + (r + ps - 1) / ps
          = (k + 1) + (T - (k + 1) * ps + ps - 1) / ps := by
        have hr' : T - (k + 1) * ps = r - ps := by rw [Nat.succ_mul]; omega
        rw [hr', ceil_div_step ps r hps (by omega), ← Nat.add_assoc]
      rw [hceil]
      exact ih (T - (k + 1) * ps) (k + 1) (by omega) rfl hbound

/-- C1 (amended): for a session whose first page succeeds and reports
total `T` and whose every requested page `k` carries the full batch of
`min ps (T - k*ps)` records, the fetch returns exactly the `T` records in
page-then-within-page order, each normalised, and issues exactly
`max 1 (ceil (T / ps))` page requests (the initial request is always
issued, so a `T = 0` session still performs one request). -/
theorem fetch_full_pages_spec (rawAt : Nat → RawRecord) (T ps : Nat)
    (srv : Nat → PageResponse) (hps : 0 < ps)
    (hsrv : ∀ k, k = 0 ∨ k * ps < T → srv k = fullPage rawAt T ps k) :
    fetch_all_projected_records srv
      = Except.ok ((List.range T).map (fun i => project_record (rawAt i)),
          max 1 ((T + ps - 1) / ps)) := by
  have h0 : srv 0 = fullPage rawAt T ps 0 := hsrv 0 (Or.inl rfl)
  have hs0 : (srv 0).success = true := by rw [h0]; rfl
  have hrec0 : (srv 0).records = (List.range (min ps T)).map (fun i => rawAt i) := by
    rw [h0]
    show (List.range (min ps (T - 0 * ps))).map (fun i => rawAt (0 * ps + i)) = _
    simp
  have hlen0 : (srv 0).records.length = min ps T := by rw [hrec0]; simp
  have htot : (pyOrTotal (srv 0).totalField (srv 0).recordsTotalField).getD
      (((srv 0).records.length : Nat) : Int) = (T : Int) := by
    rw [h0]
    by_cases hT : T = 0
    · subst hT
      simp [pyOrTotal, fullPage]
    · simp [pyOrTotal, fullPage, hT]
  have hloop := fetchLoopFuel_fullPages rawAt T ps srv hps hsrv
      (((T : Int) - ((min ps T : Nat) : Int)).toNat) (T - 1 * ps) 1 le_rfl rfl
      (by rw [Nat.one_mul]; omega)
  rw [Nat.one_mul] at hloop
  simp only [fetch_all_projected_records]
  rw [hs0]
  simp only [Bool.true_eq_false, if_false]
  rw [htot, hlen0, hrec0, List.map_map]
  rw [show (project_record ∘ fun i => rawAt i) = (fun i => project_record (rawAt i)) from rfl]
  rw [hloop, Option.getD_some, ceil_final ps T hps]

/-- C1 witness: a full-page session with total 3 and page size 2 yields
the 3 records in order in 2 requests. -/
theorem fetch_full_pages_spec_witness :
    (0 : Nat) < 2
    ∧ fetch_all_projected_records (fullPageSrv exampleRawAt 3 2)
        = Except.ok ((List.range 3).map (fun i => project_record (exampleRawAt i)),
            max 1 ((3 + 2 - 1) / 2)) :=
  ⟨by decide,
   fetch_full_pages_spec exampleRawAt 3 2 (fullPageSrv exampleRawAt 3 2) (by decide)
     (fun _ _ => rfl)⟩

/-- C1 counterexample: with page size 10, a session of batches 1 and 1
summing to the reported total 2 issues 2 requests, not
`ceil (2/10) = 1`; and a session with total 0 issues 1 request, not
`ceil (0/10) = 0`.  So the request count of the claim fails as stated,
while the record counts are as claimed. -/
theorem fetch_request_count_counterexample :
    (requestsMade (fetch_all_projected_records undersizedSrv) = 2
      ∧ (returnedRecords (fetch_all_projected_records undersizedSrv)).length = 2
      ∧ (2 + 10 - 1) / 10 = 1)
    ∧ (requestsMade (fetch_all_projected_records zeroTotalSrv) = 1
      ∧ returnedRecords (fetch_all_projected_records zeroTotalSrv) = []
      ∧ (0 + 10 - 1) / 10 = 0) :=
  ⟨⟨rfl, rfl, rfl⟩, ⟨rfl, rfl, rfl⟩⟩

/-! ### Reconciliation (left outer join with mismatch report) -/

theorem filter_key_eq_find {β : Type} :
    ∀ (rolls : List (RollRow β)) (x : Int), (rolls.map RollRow.school_id).Nodup →
      rolls.filter (fun r => r.school_id == x)
        = (rolls.find? (fun r => r.school_id == x)).toList := by
  intro rolls
  induction rolls with
  | nil => intro x _; rfl
  | cons a t ih =>
    intro x hnd
    rcases List.nodup_cons.mp hnd with ⟨ha, ht⟩
    by_cases h : a.school_id = x
    · have hb : (a.school_id == x) = true := beq_iff_eq.mpr h
      rw [List.filter_cons, if_pos hb, List.find?_cons, hb]
      have hfilt : t.filter (fun r => r.school_id == x) = [] := by
        rw [List.filter_eq_nil_iff]
        intro r hr hbr
        apply ha
        rw [show a.school_id = r.school_id from by
          rw [h]; exact (beq_iff_eq.mp hbr).symm]
        exact List.mem_map.mpr ⟨r, hr, rfl⟩
      rw [hfilt]
      rfl
    · have hb : (a.school_id == x) = false := beq_eq_false_iff_ne.mpr h
      rw [List.filter_cons, if_neg (by rw [hb]; exact Bool.false_ne_true),
          List.find?_cons, hb]
      exact ih x ht

theorem flatMap_single {α β : Type} (f : α → β) :
    ∀ (l : List α), l.flatMap (fun a => [f a]) = l.map f := by
  intro l
  induction l with
  | nil => rfl
  | cons a t ih => rw [List.flatMap_cons, List.map_cons, ih]; rfl

theorem merged_eq_map_find {α β : Type} (schools : List (SchoolRow α))
    (rolls : List (RollRow β)) (hnd : (rolls.map RollRow.school_id).Nodup) :
    (match_schools_with_rolls schools rolls).merged
      = schools.map (fun s =>
          (s, (rolls.find? (fun r => r.school_id == s.school_id)).map RollRow.band)) := by
  have hpt : ∀ s : SchoolRow α,
      (match rolls.filter (fun r => r.school_id == s.school_id) with
        | [] => [(s, (none : Option β))]
        | ms => ms.map (fun m => (s, some m.band)))
      = [(s, (rolls.find? (fun r => r.school_id == s.school_id)).map RollRow.band)] := by
    intro s
    rw [filter_key_eq_find rolls s.school_id hnd]
    cases rolls.find? (fun r => r.school_id == s.school_id) with
    | none => rfl
    | some m => rfl
  show schools.flatMap _ = _
  rw [congrArg schools.flatMap (funext hpt), flatMap_single]

/-- C2 (amended): provided the roll table's identifiers are pairwise
distinct, `match_schools_with_rolls` is a left outer join on the school
identifier — each registry row appears exactly once, in registry order,
with the matching roll band attached when the identifier occurs in the
roll table and the empty marker otherwise, roll-only identifiers produce
no rows — and the mismatch report is the pair of identifier-set
differences.  The spec scenario (registry ids 1,2,3; roll ids 2,3,4) is
also verified.  Without the distinctness proviso a registry row is
repeated once per duplicate roll entry (see the counterexample). -/
theorem match_left_join_spec :
    (∀ (α β : Type) (schools : List (SchoolRow α)) (rolls : List (RollRow β)),
      (rolls.map RollRow.school_id).Nodup →
      ((match_schools_with_rolls schools rolls).merged
          = schools.map (fun s =>
              (s, (rolls.find? (fun r => r.school_id == s.school_id)).map RollRow.band))
        ∧ (match_schools_with_rolls schools rolls).merged.map Prod.fst = schools
        ∧ ∀ p ∈ (match_schools_with_rolls schools rolls).merged,
            (p.2 = none ↔ ∀ r ∈ rolls, r.school_id ≠ p.1.school_id)))
    ∧ (∀ (α β : Type) (schools : List (SchoolRow α)) (rolls : List (RollRow β)) (i : Int),
        (i ∈ (match_schools_with_rolls schools rolls).rollOnly
          ↔ (i ∈ rolls.map RollRow.school_id ∧ i ∉ schools.map SchoolRow.school_id))
        ∧ (i ∈ (match_schools_with_rolls schools rolls).apiOnly
          ↔ (i ∈ schools.map SchoolRow.school_id ∧ i ∉ rolls.map RollRow.school_id)))
    ∧ ((match_schools_with_rolls scenarioSchools scenarioRolls).merged.map
          (fun p => p.1.school_id) = [1, 2, 3]
        ∧ (match_schools_with_rolls scenarioSchools scenarioRolls).merged.length = 3
        ∧ (match_schools_with_rolls scenarioSchools scenarioRolls).merged.map Prod.snd
          = [none, some 20, some 30]
        ∧ (match_schools_with_rolls scenarioSchools scenarioRolls).rollOnly = {4}
        ∧ (match_schools_with_rolls scenarioSchools scenarioRolls).apiOnly = {1}) := by
  refine ⟨?_, ?_, ?_⟩
  · intro α β schools rolls hnd
    have hmerge := merged_eq_map_find schools rolls hnd
    refine ⟨hmerge, ?_, ?_⟩
    · rw [hmerge, List.map_map]
      rw [show (Prod.fst ∘ fun s : SchoolRow α =>
        (s, (rolls.find? (fun r => r.school_id == s.school_id)).map RollRow.band)) = id from rfl]
      exact List.map_id schools
    · intro p hp
      rw [hmerge] at hp
      rcases List.mem_map.mp hp with ⟨s, _, rfl⟩
      show (rolls.find? (fun r => r.school_id == s.school_id)).map RollRow.band = none ↔ _
      rw [Option.map_eq_none', List.find?_eq_none]
      constructor
      · intro h r hr heq
        exact h r hr (beq_iff_eq.mpr heq)
      · intro h r hr hb
        exact h r hr (beq_iff_eq.mp hb)
  · intro α β schools rolls i
    constructor
    · show i ∈ _ \ _ ↔ _
      rw [Finset.mem_sdiff, List.mem_toFinset, List.mem_toFinset]
    · show i ∈ _ \ _ ↔ _
      rw [Finset.mem_sdiff, List.mem_toFinset, List.mem_toFinset]
  · exact ⟨by decide, by decide, by decide, by decide, by decide⟩

/-- C2 witness: the spec scenario instantiates the amended join theorem
(its roll identifiers 2, 3, 4 are pairwise distinct). -/
theorem match_left_join_spec_witness :
    (scenarioRolls.map RollRow.school_id).Nodup
    ∧ (match_schools_with_rolls scenarioSchools scenarioRolls).merged.map Prod.fst
        = scenarioSchools :=
  ⟨by decide,
   (match_left_join_spec.1 Nat Nat scenarioSchools scenarioRolls (by decide)).2.1⟩

/-- C2 counterexample: with a duplicated identifier in the roll table
(two roll rows for school 1), the single registry row for school 1 is
emitted twice by the left merge, so "every registry row appears exactly
once" fails as stated. -/
theorem match_duplicate_rolls_counterexample :
    (match_schools_with_rolls dupSchools dupRolls).merged.length = 2
    ∧ dupSchools.length = 1
    ∧ (match_schools_with_rolls dupSchools dupRolls).merged.map (fun p => p.1.school_id)
        = [1, 1] := by
  exact ⟨by decide, by decide, by decide⟩

/-! ### Roll-band extraction -/

theorem lastMatchFrom_append (p : String → Bool) :
    ∀ (l : List String) (i : Nat) (acc : Option Nat) (c : String),
      lastMatchFrom p i acc (l ++ [c])
        = if p c = true then some (i + l.length) else lastMatchFrom p i acc l := by
  intro l
  induction l with
  | nil =>
    intro i acc c
    by_cases h : p c <;> simp [lastMatchFrom, h]
  | cons d t ih =>
    intro i acc c
    show lastMatchFrom p (i + 1) (if p d then some i else acc) (t ++ [c]) = _
    rw [ih]
    by_cases h : p c
    · rw [if_pos h, if_pos h]
      have : i + 1 + t.length = i + (d :: t).length := by simp; omega
      rw [this]
    · rw [if_neg h, if_neg h]
      rfl

theorem lastMatchIdx_append (p : String → Bool) (l : List String) (c : String) :
    lastMatchIdx p (l ++ [c]) = if p c = true then some l.length else lastMatchIdx p l := by
  unfold lastMatchIdx
  rw [lastMatchFrom_append]
  simp

theorem lastMatchFrom_lt (p : String → Bool) :
    ∀ (l : List String) (i : Nat) (acc : Option Nat) (j : Nat),
      (∀ m, acc = some m → m < i) → lastMatchFrom p i acc l = some j → j < i + l.length := by
  intro l
  induction l with
  | nil =>
    intro i acc j hacc h
    have := hacc j h
    simpa using this
  | cons c t ih =>
    intro i acc j hacc h
    have hstep : lastMatchFrom p (i + 1) (if p c then some i else acc) t = some j := h
    have := ih (i + 1) (if p c then some i else acc) j ?_ hstep
    · simp only [List.length_cons]
      omega
    · intro m hm
      by_cases hc : p c
      · rw [if_pos hc] at hm
        cases hm
        omega
      · rw [if_neg hc] at hm
        have := hacc m hm
        omega

theorem lastMatchIdx_lt (p : String → Bool) (l : List String) (j : Nat)
    (h : lastMatchIdx p l = some j) : j < l.length := by
  have := lastMatchFrom_lt p l 0 none j (by intro m hm; cases hm) h
  omega

theorem range'_map_getD {α : Type} (l : List α) (d : α) :
    ∀ (n s : Nat), s + n ≤ l.length →
      (List.range' s n).map (fun i => l.getD i d) = (l.drop s).take n := by
  intro n
  induction n with
  | zero => intro s _; simp
  | succ n ih =>
    intro s h
    have hs : s < l.length := by omega
    rw [List.range'_succ, List.map_cons, ih (s + 1) (by omega),
        List.drop_eq_getElem_cons hs, List.take_succ_cons, List.getD_eq_getElem l d hs]

theorem load_roll_data_eq (sh : Sheet) (sid : Nat) (h : schoolIdIdx sh = some sid) :
    load_roll_data sh = Except.ok
      ⟨"School_Id" :: (bandIdxs sh.header).map (fun i => sh.header.getD i ""),
       sh.rows.filterMap (fun row =>
         (pyToNumeric (row.getD sid PyVal.pnone)).map
           (fun n => (n, (bandIdxs sh.header).map (fun i => row.getD i PyVal.pnone))))⟩ := by
  unfold load_roll_data
  rw [h]
  simp only [List.map_map, List.filterMap_map]
  rfl

/-- C3 (amended): the extractor derives each column's alphabetic label by
stripping non-alphabetic characters and selects the band from the LAST
column whose label case-insensitively equals the start label through the
LAST column whose label equals the end label (the lookup loop has no
break, so a later match overwrites an earlier one); the projection is the
identifier column followed by the band slice in original sheet order, and
rows whose identifier fails numeric coercion are excluded.  On the spec's
example sheet (whose labels are unique) the extracted columns are exactly
`[identifier, AY, AZ, BM]`. -/
theorem load_roll_band_spec :
    (load_roll_data exampleSheet = Except.ok
        ⟨["School_Id", "AY", "AZ", "BM"],
         [(123, [PyVal.pint 2, PyVal.pint 3, PyVal.pint 4]),
          (77, [PyVal.pint 7, PyVal.pint 8, PyVal.pint 9])]⟩)
    ∧ (∀ (p : String → Bool) (cols : List String) (c : String),
        lastMatchIdx p (cols ++ [c])
          = if p c = true then some cols.length else lastMatchIdx p cols)
    ∧ (∀ (sh : Sheet) (s e : Nat),
        lastMatchIdx (labelMatches ROLL_DATA_START_COLUMN) sh.header = some s →
        lastMatchIdx (labelMatches ROLL_DATA_END_COLUMN) sh.header = some e →
        (bandIdxs sh.header).map (fun i => sh.header.getD i "")
          = (sh.header.drop s).take (e + 1 - s))
    ∧ (∀ (sh : Sheet) (sid : Nat), schoolIdIdx sh = some sid →
        load_roll_data sh = Except.ok
          ⟨"School_Id" :: (bandIdxs sh.header).map (fun i => sh.header.getD i ""),
           sh.rows.filterMap (fun row =>
             (pyToNumeric (row.getD sid PyVal.pnone)).map
               (fun n => (n, (bandIdxs sh.header).map (fun i => row.getD i PyVal.pnone))))⟩) := by
  refine ⟨rfl, lastMatchIdx_append, ?_, load_roll_data_eq⟩
  intro sh s e hs he
  have hsl := lastMatchIdx_lt _ _ _ hs
  have hel := lastMatchIdx_lt _ _ _ he
  unfold bandIdxs
  rw [hs, he]
  exact range'_map_getD sh.header "" (e + 1 - s) s (by omega)

/-- C3 witness: the example sheet instantiates the band-slice and
projection parts of the theorem. -/
theorem load_roll_band_spec_witness :
    (lastMatchIdx (labelMatches ROLL_DATA_START_COLUMN) exampleSheet.header = some 2
      ∧ lastMatchIdx (labelMatches ROLL_DATA_END_COLUMN) exampleSheet.header = some 4
      ∧ (bandIdxs exampleSheet.header).map (fun i => exampleSheet.header.getD i "")
          = (exampleSheet.header.drop 2).take (4 + 1 - 2))
    ∧ (schoolIdIdx exampleSheet = some 0
      ∧ load_roll_data exampleSheet = Except.ok
          ⟨["School_Id", "AY", "AZ", "BM"],
           [(123, [PyVal.pint 2, PyVal.pint 3, PyVal.pint 4]),
            (77, [PyVal.pint 7, PyVal.pint 8, PyVal.pint 9])]⟩) :=
  ⟨⟨rfl, rfl, load_roll_band_spec.2.2.1 exampleSheet 2 4 rfl rfl⟩,
   ⟨rfl, load_roll_band_spec.2.2.2 exampleSheet 0 rfl⟩⟩

/-- C3 counterexample: with raw headers `AY1` and `AY2` both deriving the
alphabetic label `AY`, the extractor uses the LAST occurrence (index 2),
not the first (index 1): the extracted columns are
`[School_Id, AY2, BM]`, not the `[School_Id, AY1, AY2, BM]` a
first-occurrence band would give. -/
theorem roll_band_last_occurrence_counterexample :
    load_roll_data dupLabelSheet = Except.ok
        ⟨["School_Id", "AY2", "BM"], [(1, [PyVal.pint 20, PyVal.pint 30])]⟩
    ∧ dupLabelSheet.header.findIdx? (labelMatches ROLL_DATA_START_COLUMN) = some 1
    ∧ lastMatchIdx (labelMatches ROLL_DATA_START_COLUMN) dupLabelSheet.header = some 2
    ∧ (["School_Id", "AY2", "BM"] : List String)
        ≠ "School_Id" :: ((dupLabelSheet.header.drop 1).take (3 + 1 - 1)) :=
  ⟨rfl, rfl, rfl, by decide⟩

/-- C7: when the start or end band label does not occur among the derived
alphabetic labels, `load_roll_data` does not fail: it returns the table
with only the (numerically coerced, null-dropped) identifier column. -/
theorem roll_band_missing_boundary_graceful (sh : Sheet) (sid : Nat)
    (hsid : schoolIdIdx sh = some sid)
    (hmiss : lastMatchIdx (labelMatches ROLL_DATA_START_COLUMN) sh.header = none
      ∨ lastMatchIdx (labelMatches ROLL_DATA_END_COLUMN) sh.header = none) :
    load_roll_data sh = Except.ok
      ⟨["School_Id"],
       sh.rows.filterMap (fun row =>
         (pyToNumeric (row.getD sid PyVal.pnone)).map
           (fun n => (n, ([] : List PyVal))))⟩ := by
  have hband : bandIdxs sh.header = [] := by
    unfold bandIdxs
    rcases hmiss with h1 | h1
    · rw [h1]
    · rw [h1]
      cases lastMatchIdx (labelMatches ROLL_DATA_START_COLUMN) sh.header <;> rfl
  rw [load_roll_data_eq sh sid hsid, hband]
  rfl

/-- C7 witness: a sheet with no AY/BM labels degrades to the
identifier-only table (row "n/a" fails coercion and is dropped). -/
theorem roll_band_missing_boundary_graceful_witness :
    (schoolIdIdx missingBandSheet = some 0
      ∧ lastMatchIdx (labelMatches ROLL_DATA_START_COLUMN) missingBandSheet.header = none)
    ∧ load_roll_data missingBandSheet = Except.ok ⟨["School_Id"], [(5, [])]⟩ :=
  ⟨⟨rfl, rfl⟩, roll_band_missing_boundary_graceful missingBandSheet 0 rfl (Or.inl rfl)⟩

end MoESchools
